import Mathlib

/-!
Verification of `scripts/whois_lookup.py`, a command-line domain-availability
checker: `validate_domain` (a regex check), a file-based `Cache` with a 24-hour
TTL, a `WhoisAPI` client mapping HTTP/provider outcomes to result dictionaries,
and a `main` orchestrator (validate, cache lookup, remote call, cache store,
emit JSON, exit code).

The embedding is shallow: Python dictionaries parsed from JSON become the
`Json` inductive below; the cache directory becomes an association list from
file names to file contents; `datetime` values become integer microsecond
counts on the proleptic Gregorian calendar, with `datetime.fromisoformat` and
`isoformat` modelled as executable functions; the single HTTP request becomes
an `HttpOutcome` input. Python exceptions that the source does not catch are
modelled explicitly (`PyExc`), since several properties turn on which
exceptions escape.
-/

/-- A parsed JSON value, as produced by Python `json.load`. Numbers are
modelled as integers (the source never manipulates fractional JSON numbers;
every number it consumes is compared to `0` or subscripted, and the claims
under verification never turn on float behaviour). -/
inductive Json where
  | null
  | bool (b : Bool)
  | num (n : Int)
  | str (s : String)
  | arr (elems : List Json)
  | obj (fields : List (String × Json))

/-- Python exceptions that escape the source uncaught on the paths we model. -/
inductive PyExc where
  | attributeError
  | typeError
  | keyError
deriving DecidableEq

/-- `d.get(k)` / `d[k]` on a parsed JSON object: the value of the first binding
of `k`. Parsed Python dictionaries have unique keys, so first = only. -/
def jsonGet (kvs : List (String × Json)) (k : String) : Option Json :=
  (kvs.find? (fun p => p.fst == k)).map (fun p => p.snd)

/-- `d.get(k, default)` on a parsed JSON object. -/
def jsonGetD (kvs : List (String × Json)) (k : String) (d : Json) : Json :=
  (jsonGet kvs k).getD d

/-- `d[k] = v` on a Python dict: update in place if `k` is present, else
append the new binding at the end (insertion order is preserved). -/
def objInsert : List (String × Json) → String → Json → List (String × Json)
  | [], k, v => [(k, v)]
  | (k', v') :: t, k, v =>
    if k' == k then (k, v) :: t else (k', v') :: objInsert t k v

/-- Python truthiness of a parsed JSON value (`if x:`). -/
def pyTruthy : Json → Bool
  | .null => false
  | .bool b => b
  | .num n => n != 0
  | .str s => s != ""
  | .arr l => !l.isEmpty
  | .obj l => !l.isEmpty

/-- Python `x == 0` for an optional JSON value (`data.get("status") != 0` in
the source, negated). `0 == 0` and `False == 0` hold in Python; a missing key
gives `None`, which is not equal to `0`. -/
def pyEqZeroOpt : Option Json → Bool
  | some (.num 0) => true
  | some (.bool false) => true
  | _ => false

/-- Python `x == "registrant"` for an optional JSON value
(`contact.get("type") == "registrant"` in the source). Only an equal string
compares equal; a missing key gives `None`. -/
def typeIsRegistrant : Option Json → Bool
  | some (.str t) => t == "registrant"
  | _ => false

/-- `needle` starts `hay` (character lists). -/
def startsWithL : List Char → List Char → Bool
  | _, [] => true
  | [], _ :: _ => false
  | a :: as, b :: bs => a == b && startsWithL as bs

/-- `needle` occurs somewhere in `hay` (character lists). -/
def listHasSub : List Char → List Char → Bool
  | [], n => n.isEmpty
  | h@(_ :: t), n => startsWithL h n || listHasSub t n

/-- Python `sub in hay` for strings: substring containment. -/
def strMentions (hay sub : String) : Bool :=
  listHasSub hay.toList sub.toList

/-! ## Domain validator

Source (`validate_domain`):

    if not domain or domain is None:
        return False
    pattern = (one or more dot-separated labels, each
               `[a-zA-Z0-9]([a-zA-Z0-9-]*[a-zA-Z0-9])?`, then a final
               `\.[a-zA-Z]{2,}` label, anchored with `^ ... $`)
    return bool(re.match(pattern, domain))

Because `.` occurs in the pattern only as a literal separator and no label may
contain a dot, the regex matches a string exactly when splitting it at every
dot yields at least two parts, every part but the last matches the label
pattern, and the last part is two or more ASCII letters. `reMatch` below is
that reading. One Python subtlety is kept: `$` in `re.match` also matches just
before a single newline at the end of the string, so a valid domain followed
by one trailing `"\n"` is accepted by the source. -/

/-- ASCII letter, as matched by the Python character class `[a-zA-Z]`. -/
def isAlphaA (c : Char) : Bool :=
  (('a' ≤ c) && (c ≤ 'z')) || (('A' ≤ c) && (c ≤ 'Z'))

/-- ASCII digit, `[0-9]`. -/
def isDigitA (c : Char) : Bool :=
  ('0' ≤ c) && (c ≤ '9')

/-- ASCII alphanumeric, `[a-zA-Z0-9]`. -/
def isAlnumA (c : Char) : Bool :=
  isAlphaA c || isDigitA c

/-- A Python whitespace character (`\s` over ASCII, the characters `str`
methods treat as whitespace in the claims under test). -/
def pySpace (c : Char) : Bool :=
  c == ' ' || c == '\t' || c == '\n' || c == '\r' ||
    c == Char.ofNat 11 || c == Char.ofNat 12

/-- Split a character list at every `'.'` (the separators are dropped; empty
parts are kept, so a leading, trailing or doubled dot produces an empty part).
Always returns at least one part. -/
def splitDots : List Char → List (List Char)
  | [] => [[]]
  | c :: rest =>
    if c == '.' then [] :: splitDots rest
    else
      match splitDots rest with
      | [] => [[c]]
      | p :: ps => (c :: p) :: ps

/-- The tail `[a-zA-Z0-9-]*[a-zA-Z0-9]` of a label of length at least two:
every character alphanumeric-or-hyphen, the last one alphanumeric. -/
def labelTail : List Char → Bool
  | [] => false
  | [c] => isAlnumA c
  | c :: rest => (isAlnumA c || c == '-') && labelTail rest

/-- One non-final label, `[a-zA-Z0-9]([a-zA-Z0-9-]*[a-zA-Z0-9])?`. -/
def labelOK : List Char → Bool
  | [] => false
  | [c] => isAlnumA c
  | c :: rest => isAlnumA c && labelTail rest

/-- The final label, `[a-zA-Z]{2,}`: two or more ASCII letters. -/
def tldOK : List Char → Bool
  | c1 :: c2 :: rest => isAlphaA c1 && isAlphaA c2 && rest.all isAlphaA
  | _ => false

/-- The whole-string regex of `validate_domain`, in its dot-split reading:
at least two dot-separated parts, all leading parts labels, the last part a
TLD of two or more letters. -/
def reMatch (l : List Char) : Bool :=
  match (splitDots l).reverse with
  | [] => false
  | tld :: rest => !rest.isEmpty && rest.all labelOK && tldOK tld

/-- `validate_domain(domain)` from the source. The second disjunct models
Python `$` matching just before one trailing newline. -/
def validate_domain (s : String) : Bool :=
  if s == "" then false
  else
    let l := s.toList
    reMatch l ||
      (if l.getLast? == some '\n' then reMatch l.dropLast else false)

/-! Specification-side restatement of the validator grammar, written from the
words of the specification ("one or more dot-separated labels, each label
alphanumeric-with-internal-hyphens (no leading/trailing hyphen), followed by a
final label (the TLD) of at least two alphabetic characters"), to be compared
with the regex reading `reMatch` taken from the source. -/

/-- Spec-side label: nonempty, all characters alphanumeric or hyphen, first
and last characters alphanumeric. -/
def specLabel (l : List Char) : Bool :=
  !l.isEmpty && l.all (fun c => isAlnumA c || c == '-') &&
    (match l.head? with | some c => isAlnumA c | none => false) &&
    (match l.getLast? with | some c => isAlnumA c | none => false)

/-- Spec-side TLD: at least two characters, all ASCII letters. -/
def specTld (l : List Char) : Bool :=
  decide (2 ≤ l.length) && l.all isAlphaA

/-- Spec-side grammar of a well-formed domain (without the trailing-newline
allowance): at least two dot-separated parts, all leading parts `specLabel`,
the final part `specTld`. -/
def specGood (cs : List Char) : Bool :=
  match (splitDots cs).reverse with
  | [] => false
  | tld :: rest => !rest.isEmpty && rest.all specLabel && specTld tld

/-- Remove a single trailing newline, when present. -/
def stripNL (l : List Char) : List Char :=
  if l.getLast? == some '\n' then l.dropLast else l

/-! ## Datetime model

`datetime` values are modelled as microsecond counts on the proleptic
Gregorian calendar (day arithmetic by the standard civil-calendar algorithms).
`datetime.fromisoformat` is modelled for the grammar
`YYYY-MM-DD[<sep>HH[:MM[:SS[.fff|.ffffff]]][±HH:MM]]` with the range checks the
`datetime` constructors perform (year 1..., month, day-in-month, hour ≤ 23,
minute, second ≤ 59, total offset strictly below 24 hours); parse failure is
`none`, the model of `ValueError`. This is the portion of the CPython grammar
the program can encounter; the rarer second-resolution timezone forms are not
modelled. `isoformat` (plus the appended `"Z"`) is modelled by `isoZ`. -/

/-- Numeric value of an ASCII digit. -/
def digitVal (c : Char) : Option Nat :=
  if isDigitA c then some (c.toNat - 48) else none

/-- Two-digit number. -/
def num2 (a b : Char) : Option Nat := do
  let x ← digitVal a
  let y ← digitVal b
  pure (10 * x + y)

/-- Four-digit number. -/
def num4 (a b c d : Char) : Option Nat := do
  let x ← num2 a b
  let y ← num2 c d
  pure (100 * x + y)

/-- Gregorian leap year. -/
def isLeap (y : Nat) : Bool :=
  (y % 4 == 0 && y % 100 != 0) || (y % 400 == 0)

/-- Days in a month. -/
def daysInMonth (y m : Nat) : Nat :=
  if m == 2 then (if isLeap y then 29 else 28)
  else if m == 4 || m == 6 || m == 9 || m == 11 then 30
  else 31

/-- Day count of a civil date (days since 0000-03-01 of the proleptic
Gregorian calendar; the standard era/year-of-era algorithm, valid for
year ≥ 1 as enforced by the parser). -/
def daysFromCivil (y m d : Nat) : Nat :=
  let y' := if m ≤ 2 then y - 1 else y
  let era := y' / 400
  let yoe := y' % 400
  let mp := (m + 9) % 12
  let doy := (153 * mp + 2) / 5 + d - 1
  let doe := yoe * 365 + yoe / 4 - yoe / 100 + doy
  era * 146097 + doe

/-- Inverse of `daysFromCivil`: the civil date of a day count. -/
def civilFromDays (z : Nat) : Nat × Nat × Nat :=
  let era := z / 146097
  let doe := z % 146097
  let yoe := (doe - doe / 1460 + doe / 36524 - doe / 146096) / 365
  let y := yoe + era * 400
  let doy := doe - (365 * yoe + yoe / 4 - yoe / 100)
  let mp := (5 * doy + 2) / 153
  let d := doy - (153 * mp + 2) / 5 + 1
  let m := if mp < 10 then mp + 3 else mp - 9
  (if m ≤ 2 then y + 1 else y, m, d)

/-- Microsecond count of a naive (wall-clock) datetime. -/
def wallMicros (y m d h mi s us : Nat) : Int :=
  (((daysFromCivil y m d) * 86400 + h * 3600 + mi * 60 + s) * 1000000 + us : Nat)

/-- Split the time portion of an ISO string at the first sign character, which
starts the timezone offset (`true` = negative offset). -/
def splitSign : List Char → List Char × Option (Bool × List Char)
  | [] => ([], none)
  | c :: t =>
    if c == '+' || c == '-' then ([], some (c == '-', t))
    else
      let r := splitSign t
      (c :: r.fst, r.snd)

/-- Parse `HH`, `HH:MM`, `HH:MM:SS`, `HH:MM:SS.fff` or `HH:MM:SS.ffffff`,
with the range checks of `datetime.time`. -/
def hmsOfChars : List Char → Option (Nat × Nat × Nat × Nat)
  | [h1, h2] => do
    let h ← num2 h1 h2
    if h ≤ 23 then pure (h, 0, 0, 0) else none
  | [h1, h2, ':', m1, m2] => do
    let h ← num2 h1 h2
    let mi ← num2 m1 m2
    if h ≤ 23 && mi ≤ 59 then pure (h, mi, 0, 0) else none
  | [h1, h2, ':', m1, m2, ':', s1, s2] => do
    let h ← num2 h1 h2
    let mi ← num2 m1 m2
    let s ← num2 s1 s2
    if h ≤ 23 && mi ≤ 59 && s ≤ 59 then pure (h, mi, s, 0) else none
  | h1 :: h2 :: ':' :: m1 :: m2 :: ':' :: s1 :: s2 :: '.' :: fr => do
    let h ← num2 h1 h2
    let mi ← num2 m1 m2
    let s ← num2 s1 s2
    let us ←
      match fr with
      | [a, b, c] => do
        let x ← digitVal a; let y ← digitVal b; let z ← digitVal c
        pure ((100 * x + 10 * y + z) * 1000)
      | [a, b, c, d, e, f] => do
        let x ← num2 a b; let y ← num2 c d; let z ← num2 e f
        pure ((10000 * x + 100 * y + z))
      | _ => none
    if h ≤ 23 && mi ≤ 59 && s ≤ 59 then pure (h, mi, s, us) else none
  | _ => none

/-- Parse a `HH:MM` timezone offset into signed microseconds; the `timezone`
constructor requires the absolute offset to be strictly below 24 hours. -/
def tzOfChars (neg : Bool) : List Char → Option Int
  | [a, b, ':', c, d] => do
    let th ← num2 a b
    let tm ← num2 c d
    let secs := th * 3600 + tm * 60
    if secs < 86400 then
      let v : Int := (secs : Nat) * 1000000
      pure (if neg then -v else v)
    else none
  | _ => none

/-- Model of `datetime.fromisoformat`: on success, the wall-clock microsecond
count together with the timezone offset when one was given. As in CPython, the
character between the date and the time (index 10) is skipped whatever it is,
and parsing the string `YYYY-MM-DD` alone gives midnight. -/
def fromisoformat (s : String) : Option (Int × Option Int) :=
  match s.toList with
  | y1 :: y2 :: y3 :: y4 :: '-' :: m1 :: m2 :: '-' :: d1 :: d2 :: rest => do
    let y ← num4 y1 y2 y3 y4
    let m ← num2 m1 m2
    let d ← num2 d1 d2
    if 1 ≤ y && 1 ≤ m && m ≤ 12 && 1 ≤ d && d ≤ daysInMonth y m then
      match rest with
      | [] => pure (wallMicros y m d 0 0 0 0, none)
      | _ :: tcs => do
        let pr := splitSign tcs
        let (h, mi, s, us) ← hmsOfChars pr.fst
        match pr.snd with
        | none => pure (wallMicros y m d h mi s us, none)
        | some (neg, tzcs) => do
          let off ← tzOfChars neg tzcs
          pure (wallMicros y m d h mi s us, some off)
    else none
  | _ => none

/-- `s.replace("Z", "+00:00")` on character lists: the pattern is a single
character, so every `'Z'` is replaced. -/
def replaceZL : List Char → List Char
  | [] => []
  | c :: t =>
    if c == 'Z' then '+' :: '0' :: '0' :: ':' :: '0' :: '0' :: replaceZL t
    else c :: replaceZL t

/-- `s.replace("Z", "+00:00")` from the source. -/
def replaceZ (s : String) : String :=
  String.mk (replaceZL s.toList)

/-- Left-pad a number with zeros to a width. -/
def padZ (w n : Nat) : String :=
  let s := toString n
  String.mk (List.replicate (w - s.length) '0') ++ s

/-- `datetime.utcnow().isoformat() + "Z"` for a microsecond count:
`YYYY-MM-DDTHH:MM:SS`, with `.ffffff` only when microseconds are nonzero,
then `"Z"`. -/
def isoZ (now : Int) : String :=
  let n := now.toNat
  let days := n / 86400000000
  let rem := n % 86400000000
  let c := civilFromDays days
  let secs := rem / 1000000
  let us := rem % 1000000
  let h := secs / 3600
  let mi := secs % 3600 / 60
  let sec := secs % 60
  padZ 4 c.1 ++ "-" ++ padZ 2 c.2.1 ++ "-" ++ padZ 2 c.2.2 ++ "T" ++
    padZ 2 h ++ ":" ++ padZ 2 mi ++ ":" ++ padZ 2 sec ++
    (if us == 0 then "" else "." ++ padZ 6 us) ++ "Z"

/-! ## Cache store

The cache directory is an association list from file names to file contents.
A file content is either JSON that fails to parse (`json.load` raises
`JSONDecodeError`) or a parsed JSON value. `Cache.get` mirrors the source:

    try:
        data = json.load(f)
        checked_at = fromisoformat(data["checked_at"].replace("Z", "+00:00"))
        age = utcnow() - checked_at.replace(tzinfo=None)
        if age > timedelta(hours=24): return None
        return data
    except (json.JSONDecodeError, KeyError, ValueError):
        cache_path.unlink(missing_ok=True)
        return None

The `except` tuple does not include `AttributeError` (raised by `.replace`
when `data["checked_at"]` is not a string) or `TypeError` (raised by the
subscript when the parsed value is not a dictionary), so those escape;
`GetResult.raises` models that. `.replace(tzinfo=None)` discards a parsed
offset and keeps the wall clock, which is why only the wall-clock component
of `fromisoformat` enters the age computation. -/

/-- Content of one cache file. -/
inductive FileData where
  | malformed
  | value (j : Json)

/-- The cache directory: file name ↦ file content. -/
abbrev FS := List (String × FileData)

/-- Look a file up by name. -/
def fsLookup (fs : FS) (k : String) : Option FileData :=
  (fs.find? (fun p => p.fst == k)).map (fun p => p.snd)

/-- `path.unlink(missing_ok=True)`: remove the file when present. -/
def fsErase (fs : FS) (k : String) : FS :=
  fs.filter (fun p => p.fst != k)

/-- Write a file (overwriting any previous content). -/
def fsInsert (fs : FS) (k : String) (v : FileData) : FS :=
  (k, v) :: fsErase fs k

/-- `_get_cache_path`: the file name for a domain. -/
def cacheKey (domain : String) : String :=
  domain ++ ".json"

/-- `CACHE_TTL_HOURS = 24`, as `timedelta(hours=24)` in microseconds. -/
def Cache.ttlMicros : Int :=
  24 * 3600 * 1000000

/-- Outcome of `Cache.get`: the cached dictionary, a miss (`None`), or an
uncaught exception. -/
inductive GetResult where
  | hit (data : Json)
  | miss
  | raises (e : PyExc)

/-- `Cache.get(domain)` from the source, returning the outcome and the cache
directory afterwards (the corruption path deletes the file). -/
def Cache.get (fs : FS) (domain : String) (now : Int) : GetResult × FS :=
  let path := cacheKey domain
  match fsLookup fs path with
  | none => (.miss, fs)
  | some .malformed => (.miss, fsErase fs path)
  | some (.value j) =>
    match j with
    | .obj kvs =>
      match jsonGet kvs "checked_at" with
      | none => (.miss, fsErase fs path)
      | some (.str s) =>
        match fromisoformat (replaceZ s) with
        | none => (.miss, fsErase fs path)
        | some dt =>
          if now - dt.fst > Cache.ttlMicros then (.miss, fs) else (.hit j, fs)
      | some _ => (.raises .attributeError, fs)
    | _ => (.raises .typeError, fs)

/-- `Cache.set(domain, data)` from the source: serialize and overwrite the
file for the domain (reading it back parses to the same value; the model
assumes the write itself succeeds — the source swallows write failures). -/
def Cache.set (fs : FS) (domain : String) (data : Json) : FS :=
  fsInsert fs (cacheKey domain) (.value data)

/-! ## Whois client

`WhoisAPI.lookup(domain)` performs at most one `requests.get`. The outcome of
that transport call is an input: a timeout (`requests.Timeout`), another
transport failure carrying `str(e)` (`requests.RequestException`), or an HTTP
response with a status code and a parsed JSON body. The function returns the
result dictionary together with a flag saying whether the transport was
invoked at all; exceptions the source does not catch (iterating or
subscripting ill-typed provider fields) are surfaced as `LookupOutcome.raises`. -/

/-- Outcome of the single `requests.get` call. -/
inductive HttpOutcome where
  | timeout
  | reqError (msg : String)
  | response (code : Nat) (body : Json)

/-- Outcome of `WhoisAPI.lookup`: the returned dictionary, or an uncaught
exception. -/
inductive LookupOutcome where
  | ok (dict : List (String × Json))
  | raises (e : PyExc)

/-- An error result dictionary, in the key order the source writes. -/
def errDictJ (et : String) (msg : Json) (act : String) : List (String × Json) :=
  [("status", .str "error"), ("error_type", .str et),
   ("message", msg), ("suggested_action", .str act)]

/-- `if not self.api_token:` — the token is falsy when `None` or empty. -/
def tokenTruthy : Option String → Bool
  | none => false
  | some s => s != ""

/-- `expires.split(" ")[0]`: the characters before the first space. -/
def firstSpaceField (s : String) : String :=
  String.mk (s.toList.takeWhile (fun c => c != ' '))

/-- `" " in expires` for a string: does it contain a space. -/
def hasSpaceChar (s : String) : Bool :=
  s.toList.any (fun c => c == ' ')

/-- The `for contact in contacts:` loop body from the source: the first
contact whose `type` is `"registrant"` gives
`contact.get("organization", contact.get("name", "Unknown"))`; iterating past
a non-dictionary element raises `AttributeError` at `contact.get`. -/
def regLoop : List Json → Except PyExc Json
  | [] => .ok (.str "Unknown")
  | c :: rest =>
    match c with
    | .obj kv =>
      if typeIsRegistrant (jsonGet kv "type") then
        .ok (jsonGetD kv "organization" (jsonGetD kv "name" (.str "Unknown")))
      else regLoop rest
    | _ => .error .attributeError

/-- Registrant extraction over the raw `data.get("contacts", [])` value.
A JSON array iterates its elements; a nonempty string iterates characters
(each a string without `.get`, so `AttributeError`); a nonempty object
iterates its keys (strings, so again `AttributeError`); empty iterables skip
the loop; anything else is not iterable (`TypeError`). -/
def extractRegistrant : Json → Except PyExc Json
  | .arr l => regLoop l
  | .str s => if s == "" then .ok (.str "Unknown") else .error .attributeError
  | .obj kv => if kv.isEmpty then .ok (.str "Unknown") else .error .attributeError
  | _ => .error .typeError

/-- Expiration extraction over the raw `data.get("date_expires", "Unknown")`
value:

    if expires != "Unknown" and " " in expires:
        expires = expires.split(" ")[0]

For a string this truncates at the first space; `" " in x` on an array is
element membership and on an object key membership (and a hit then raises
`AttributeError` at `.split`); on a number, boolean or `None` it raises
`TypeError` (not iterable). A non-string compares unequal to `"Unknown"`. -/
def extractExpires : Json → Except PyExc Json
  | .str s =>
    if s != "Unknown" && hasSpaceChar s then .ok (.str (firstSpaceField s))
    else .ok (.str s)
  | .arr l =>
    if l.any (fun j => match j with | .str t => t == " " | _ => false) then
      .error .attributeError
    else .ok (.arr l)
  | .obj kv =>
    if kv.any (fun p => p.fst == " ") then .error .attributeError
    else .ok (.obj kv)
  | _ => .error .typeError

/-- The `taken` branch of `lookup`: registrant, expiration and registrar
extraction, in source order, building the result dictionary. -/
def parseTaken (kvs : List (String × Json)) (domain : String) :
    Except PyExc (List (String × Json)) := do
  let registrant ← extractRegistrant (jsonGetD kvs "contacts" (.arr []))
  let expires ← extractExpires (jsonGetD kvs "date_expires" (.str "Unknown"))
  pure [("status", .str "taken"), ("domain", .str domain),
        ("registrant", registrant), ("expires", expires),
        ("registrar", jsonGetD kvs "registrar" (.str "Unknown"))]

/-- `WhoisAPI.lookup(domain)` from the source. The second component is true
exactly when the transport was invoked. A 200 body that is not a JSON object
raises `AttributeError` at `data.get`. -/
def WhoisAPI.lookup (token : Option String) (domain : String)
    (net : HttpOutcome) : LookupOutcome × Bool :=
  if tokenTruthy token then
    match net with
    | .timeout =>
      (.ok (errDictJ "api_error" (.str "API request timeout after 10 seconds.")
        "Check your internet connection and try again."), true)
    | .reqError m =>
      (.ok (errDictJ "api_error" (.str ("Network error: " ++ m))
        "Check your internet connection."), true)
    | .response code body =>
      if code == 401 then
        (.ok (errDictJ "api_error" (.str "API key invalid or missing.")
          "Check your WHOAPI_TOKEN environment variable."), true)
      else if code == 429 then
        (.ok (errDictJ "api_error" (.str "API rate limit reached.")
          "Try again later. Cached results still work!"), true)
      else if code != 200 then
        (.ok (errDictJ "api_error" (.str ("API returned status " ++ toString code))
          "Try again later or check WhoAPI status."), true)
      else
        match body with
        | .obj kvs =>
          if !pyEqZeroOpt (jsonGet kvs "status") then
            (.ok (errDictJ "api_error" (jsonGetD kvs "status_desc" (.str "API error"))
              "Check API status or try again later."), true)
          else if !pyTruthy (jsonGetD kvs "registered" (.bool true)) then
            (.ok [("status", .str "available"), ("domain", .str domain)], true)
          else
            match parseTaken kvs domain with
            | .ok d => (.ok d, true)
            | .error e => (.raises e, true)
        | _ => (.raises .attributeError, true)
  else
    (.ok (errDictJ "configuration_error"
      (.str "API token not set. Set WHOAPI_TOKEN environment variable.")
      "Run: export WHOAPI_TOKEN=your_token_here"), false)

/-! ## CLI orchestrator

`main()` from the source: version check, argument count, validation, cache
lookup (the hit path prints the cached dictionary and exits 0 without looking
at its `status`), remote lookup, persist-if-successful (stamping
`checked_at = utcnow().isoformat() + "Z"` before writing), print, exit code.
Exceptions that escape `Cache.get` or `WhoisAPI.lookup` crash the process
before anything is printed. -/

/-- Result of one process run: a single printed JSON value, the exit code and
the final cache directory — or a crash with no output. -/
inductive MainOutcome where
  | exit (printed : Json) (code : Nat) (fs : FS)
  | crash (e : PyExc) (fs : FS)

/-- `result["status"] in ["available", "taken"]` (Python list membership is
elementwise equality; only an equal string matches). -/
def stAvailTaken : Json → Bool
  | .str s => s == "available" || s == "taken"
  | _ => false

/-- `result["status"] == "error"`. -/
def stIsError : Json → Bool
  | .str s => s == "error"
  | _ => false

/-- The `system_error` dictionary printed when the Python version check
fails. -/
def sysErrJson : Json :=
  .obj (errDictJ "system_error" (.str "Python 3.6 or higher required")
    "Upgrade Python: python3 --version")

/-- The `validation_error` dictionary for a wrong argument count. -/
def noDomainJson : Json :=
  .obj (errDictJ "validation_error" (.str "No domain provided")
    "Usage: python whois_lookup.py <domain>")

/-- The `validation_error` dictionary for a malformed domain. -/
def invalidJson : Json :=
  .obj (errDictJ "validation_error" (.str "Invalid domain format")
    "Domain must be like: example.com or sub.example.com")

/-- The tail of `main` after a cache miss: remote lookup, persist successful
results (stamped with the current UTC timestamp), print, exit code
(1 exactly when `result["status"] == "error"`). -/
def afterMiss (domain : String) (fs1 : FS) (now : Int) (token : Option String)
    (net : HttpOutcome) : MainOutcome :=
  match WhoisAPI.lookup token domain net with
  | (.raises e, _) => .crash e fs1
  | (.ok rkvs, _) =>
    match jsonGet rkvs "status" with
    | none => .crash .keyError fs1
    | some st =>
      if stAvailTaken st then
        let rkvs2 := objInsert rkvs "checked_at" (.str (isoZ now))
        .exit (.obj rkvs2) 0 (Cache.set fs1 domain (.obj rkvs2))
      else
        .exit (.obj rkvs) (if stIsError st then 1 else 0) fs1

/-- `main()` from the source. Inputs: whether the Python version check
passes, `sys.argv` (program name included), the cache directory, the current
UTC time in microseconds, the API token (constructor argument or environment),
and the outcome the transport would produce if invoked. -/
def mainRun (pyOk : Bool) (argv : List String) (fs : FS) (now : Int)
    (token : Option String) (net : HttpOutcome) : MainOutcome :=
  if !pyOk then .exit sysErrJson 1 fs
  else
    match argv with
    | [_, domain] =>
      if !validate_domain domain then .exit invalidJson 1 fs
      else
        match Cache.get fs domain now with
        | (.raises e, fs1) => .crash e fs1
        | (.hit j, fs1) =>
          if pyTruthy j then .exit j 0 fs1
          else afterMiss domain fs1 now token net
        | (.miss, fs1) => afterMiss domain fs1 now token net
    | _ => .exit noDomainJson 1 fs

/-! ## Specification-side characterizations

Definitions written from the words of the specification, to be compared with
the source-side extraction code. -/

/-- A contact entry whose role is `"registrant"`. -/
def isRegContact : Json → Bool
  | .obj kv => typeIsRegistrant (jsonGet kv "type")
  | _ => false

/-- Spec-side registrant: the first contact entry whose role is
`"registrant"`, preferring its organization name and falling back to its
personal name, defaulting to `"Unknown"` when no such contact exists. -/
def specRegistrant (l : List Json) : Json :=
  match l.find? isRegContact with
  | some (.obj kv) => jsonGetD kv "organization" (jsonGetD kv "name" (.str "Unknown"))
  | _ => .str "Unknown"

/-- Spec-side expiration: the provider string truncated at the first space
when a time-of-day component is present. -/
def specExpires (es : String) : String :=
  if hasSpaceChar es then firstSpaceField es else es

/-! ## Lemmas about the validator -/

/-- `splitDots` always returns at least one part. -/
theorem splitDots_ne_nil (l : List Char) : splitDots l ≠ [] := by
  cases l with
  | nil => simp [splitDots]
  | cons c t =>
    simp only [splitDots]
    split
    · simp
    · split <;> simp

/-- If `l.getLast? = some c` then `c ∈ l`. -/
theorem memOfGetLast : ∀ {l : List Char} {c : Char}, l.getLast? = some c → c ∈ l := by
  intro l
  induction l with
  | nil => intro c h; simp at h
  | cons a t ih =>
    intro c h
    cases t with
    | nil => simp at h; simp [h]
    | cons b t2 =>
      rw [List.getLast?_cons_cons] at h
      exact List.mem_cons_of_mem a (ih h)

/-- Every non-dot character of `l` lies in one of its dot-split parts. -/
theorem mem_splitDots_of_mem : ∀ {l : List Char} {c : Char}, c ∈ l → c ≠ '.' →
    ∃ p ∈ splitDots l, c ∈ p := by
  intro l
  induction l with
  | nil => intro c h; simp at h
  | cons a t ih =>
    intro c hm hne
    by_cases ha : a = '.'
    · subst ha
      have hct : c ∈ t := by
        rcases List.mem_cons.mp hm with rfl | h
        · exact absurd rfl hne
        · exact h
      obtain ⟨p, hp, hcp⟩ := ih hct hne
      refine ⟨p, ?_, hcp⟩
      simp [splitDots, List.mem_cons]
      exact Or.inr hp
    · have hsplit : splitDots (a :: t) =
          (a :: (splitDots t).headD []) :: (splitDots t).tail := by
        simp only [splitDots]
        rw [if_neg (by simpa using ha)]
        cases hs : splitDots t with
        | nil => exact absurd hs (splitDots_ne_nil t)
        | cons p ps => simp
      rcases List.mem_cons.mp hm with rfl | hct
      · exact ⟨_, by rw [hsplit]; exact List.mem_cons_self _ _, List.mem_cons_self _ _⟩
      · obtain ⟨p, hp, hcp⟩ := ih hct hne
        cases hs : splitDots t with
        | nil => exact absurd hs (splitDots_ne_nil t)
        | cons q qs =>
          rw [hs] at hp
          rcases List.mem_cons.mp hp with rfl | hps
          · refine ⟨a :: p, ?_, List.mem_cons_of_mem a hcp⟩
            rw [hsplit, hs]
            simp
          · refine ⟨p, ?_, hcp⟩
            rw [hsplit, hs]
            simp [List.mem_cons]
            exact Or.inr hps

/-- One-step unfolding of `splitDots` on a cons. -/
theorem splitDots_cons (c : Char) (t : List Char) :
    splitDots (c :: t) = if c == '.' then [] :: splitDots t
      else match splitDots t with
        | [] => [[c]]
        | p :: ps => (c :: p) :: ps := rfl

/-- `splitDots` on a leading dot. -/
theorem splitDots_cons_dot (t : List Char) :
    splitDots ('.' :: t) = [] :: splitDots t := rfl

/-- `splitDots` on a leading non-dot extends the first part. -/
theorem splitDots_cons_ne (a : Char) (t : List Char) (ha : ¬ a = '.')
    (q : List Char) (qs : List (List Char)) (hs : splitDots t = q :: qs) :
    splitDots (a :: t) = (a :: q) :: qs := by
  rw [splitDots_cons, if_neg (by simpa using ha), hs]

/-- The last part of the dot-split ends with the last character of the list,
when that character is not a dot. -/
theorem splitDots_getLast : ∀ (l : List Char) (c : Char), c ≠ '.' →
    l.getLast? = some c →
    ∃ p, (splitDots l).getLast? = some p ∧ p.getLast? = some c := by
  intro l
  induction l with
  | nil => intro c _ h; simp at h
  | cons a t ih =>
    intro c hne h
    cases t with
    | nil =>
      have hac : a = c := by simpa using h
      subst hac
      refine ⟨[a], ?_, rfl⟩
      rw [splitDots_cons, if_neg (by simpa using hne)]
      rfl
    | cons b t2 =>
      rw [List.getLast?_cons_cons] at h
      obtain ⟨p, hp1, hp2⟩ := ih c hne h
      cases hs : splitDots (b :: t2) with
      | nil => exact absurd hs (splitDots_ne_nil _)
      | cons q qs =>
        rw [hs] at hp1
        by_cases ha : a = '.'
        · subst ha
          refine ⟨p, ?_, hp2⟩
          rw [splitDots_cons_dot, hs, List.getLast?_cons_cons]
          exact hp1
        · have hsplit : splitDots (a :: b :: t2) = (a :: q) :: qs :=
            splitDots_cons_ne a _ ha q qs hs
          cases qs with
          | nil =>
            have hqp : q = p := by simpa using hp1
            subst hqp
            refine ⟨a :: q, by rw [hsplit]; rfl, ?_⟩
            cases q with
            | nil => simp at hp2
            | cons q1 qt => rw [List.getLast?_cons_cons]; exact hp2
          | cons r rs =>
            refine ⟨p, ?_, hp2⟩
            rw [hsplit, List.getLast?_cons_cons]
            rw [List.getLast?_cons_cons] at hp1
            exact hp1

/-- `labelTail` (the `[a-zA-Z0-9-]*[a-zA-Z0-9]` tail) in closed form: all
characters alphanumeric-or-hyphen and the last one alphanumeric. -/
theorem labelTail_eq : ∀ (l : List Char), l ≠ [] →
    labelTail l = (l.all (fun c => isAlnumA c || c == '-') &&
      match l.getLast? with | some c => isAlnumA c | none => false) := by
  intro l
  induction l with
  | nil => intro h; exact absurd rfl h
  | cons a t ih =>
    intro _
    cases t with
    | nil =>
      show isAlnumA a = _
      cases h : isAlnumA a <;> simp [h]
    | cons b t2 =>
      show ((isAlnumA a || a == '-') && labelTail (b :: t2)) = _
      rw [ih (by simp), List.getLast?_cons_cons]
      simp [List.all_cons, Bool.and_assoc]

/-- The source-side label pattern agrees with the spec-side `specLabel`. -/
theorem labelOK_eq_specLabel : ∀ l, labelOK l = specLabel l := by
  intro l
  cases l with
  | nil => rfl
  | cons a t =>
    cases t with
    | nil =>
      show isAlnumA a = specLabel [a]
      cases h : isAlnumA a <;> simp [specLabel, h]
    | cons b t2 =>
      show (isAlnumA a && labelTail (b :: t2)) = specLabel (a :: b :: t2)
      rw [labelTail_eq _ (by simp)]
      simp only [specLabel, List.isEmpty_cons, Bool.not_false, List.all_cons,
        List.head?_cons, List.getLast?_cons_cons, Bool.true_and]
      rcases hgl : (b :: t2).getLast? with _ | c <;>
        cases ha : isAlnumA a <;>
          simp [ha, Bool.and_assoc, Bool.and_comm, Bool.and_left_comm]

/-- The source-side TLD pattern agrees with the spec-side `specTld`. -/
theorem tldOK_eq_specTld : ∀ l, tldOK l = specTld l := by
  intro l
  rcases l with _ | ⟨c1, _ | ⟨c2, rest⟩⟩
  · rfl
  · show (false : Bool) = specTld [c1]
    simp [specTld]
  · show (isAlphaA c1 && isAlphaA c2 && rest.all isAlphaA) = specTld (c1 :: c2 :: rest)
    have h2 : decide (2 ≤ (c1 :: c2 :: rest : List Char).length) = true := by
      simp
    simp [specTld, h2, List.all_cons, Bool.and_assoc]

/-- The source regex reading agrees with the spec-side grammar. -/
theorem reMatch_eq_specGood (l : List Char) : reMatch l = specGood l := by
  unfold reMatch specGood
  rw [funext labelOK_eq_specLabel, funext tldOK_eq_specTld]

/-- Every character of a TLD part is an ASCII letter. -/
theorem tldOK_all : ∀ {p : List Char}, tldOK p = true → ∀ c ∈ p, isAlphaA c = true := by
  intro p hp c hc
  rcases p with _ | ⟨c1, _ | ⟨c2, rest⟩⟩
  · exact Bool.noConfusion hp
  · exact Bool.noConfusion hp
  · simp only [tldOK, Bool.and_eq_true, List.all_eq_true] at hp
    rcases List.mem_cons.mp hc with rfl | hc2
    · exact hp.1.1
    · rcases List.mem_cons.mp hc2 with rfl | hc3
      · exact hp.1.2
      · exact hp.2 c hc3

/-- Every character of a spec-side label is alphanumeric or a hyphen. -/
theorem specLabel_chars {p : List Char} (h : specLabel p = true) :
    ∀ c ∈ p, (isAlnumA c || c == '-') = true := by
  intro c hc
  simp only [specLabel, Bool.and_eq_true, List.all_eq_true] at h
  exact h.1.1.2 c hc

/-- An alphanumeric-or-hyphen character is not whitespace. -/
theorem alnumHyphen_not_space {c : Char} (h : (isAlnumA c || c == '-') = true) :
    pySpace c = false := by
  cases hs : pySpace c
  · rfl
  · exfalso
    simp only [pySpace, Bool.or_eq_true, beq_iff_eq] at hs
    rcases hs with ((((rfl | rfl) | rfl) | rfl) | rfl) | rfl <;> exact Bool.noConfusion h

/-- An ASCII letter is not whitespace. -/
theorem alpha_not_space {c : Char} (h : isAlphaA c = true) : pySpace c = false :=
  alnumHyphen_not_space (by simp [isAlnumA, h])

/-- A spec-side well-formed domain contains no whitespace. -/
theorem specGood_no_space {cs : List Char} (h : specGood cs = true) :
    ∀ c ∈ cs, pySpace c = false := by
  intro c hc
  by_cases hdot : c = '.'
  · subst hdot; rfl
  · obtain ⟨p, hp, hcp⟩ := mem_splitDots_of_mem hc hdot
    cases hrev : (splitDots cs).reverse with
    | nil => exact absurd (List.reverse_eq_nil_iff.mp hrev) (splitDots_ne_nil cs)
    | cons tld rest =>
      unfold specGood at h
      rw [hrev] at h
      have h2 : ((!rest.isEmpty && rest.all specLabel) && specTld tld) = true := h
      simp only [Bool.and_eq_true, List.all_eq_true] at h2
      have hmemrev : p ∈ tld :: rest := by
        rw [← hrev]
        exact List.mem_reverse.mpr hp
      rcases List.mem_cons.mp hmemrev with rfl | hprest
      · have h3 := h2.2
        simp only [specTld, Bool.and_eq_true, List.all_eq_true] at h3
        exact alpha_not_space (h3.2 c hcp)
      · exact alnumHyphen_not_space (specLabel_chars (h2.1.2 p hprest) c hcp)

/-- A list ending in a newline never matches the regex (the last dot-split
part would have to be all letters). -/
theorem reMatch_newline {l : List Char} (h : l.getLast? = some '\n') :
    reMatch l = false := by
  cases hr : reMatch l
  · rfl
  · exfalso
    obtain ⟨p, hp1, hp2⟩ := splitDots_getLast l '\n' (by decide) h
    unfold reMatch at hr
    cases hrev : (splitDots l).reverse with
    | nil => rw [hrev] at hr; exact Bool.noConfusion hr
    | cons tld rest =>
      rw [hrev] at hr
      have hr2 : ((!rest.isEmpty && rest.all labelOK) && tldOK tld) = true := hr
      have hhd : (splitDots l).reverse.head? = some tld := by rw [hrev]; rfl
      rw [List.head?_reverse, hp1] at hhd
      obtain rfl : p = tld := by simpa using hhd
      have hr3 : tldOK p = true := by
        have h4 := hr2
        simp only [Bool.and_eq_true] at h4
        exact h4.2
      have halpha := tldOK_all hr3 '\n' (memOfGetLast hp2)
      exact Bool.noConfusion halpha

/-- `validate_domain` in terms of `reMatch` after stripping one trailing
newline. -/
theorem validate_eq_core (s : String) :
    validate_domain s = reMatch (stripNL s.toList) := by
  unfold validate_domain stripNL
  by_cases hs : (s == "") = true
  · rw [if_pos hs]
    obtain rfl : s = "" := by simpa using hs
    decide
  · rw [if_neg hs]
    show (reMatch s.toList ||
      if (s.toList.getLast? == some '\n') = true then reMatch s.toList.dropLast
      else false) = _
    by_cases hnl : (s.toList.getLast? == some '\n') = true
    · rw [if_pos hnl, if_pos hnl, reMatch_newline (by simpa using hnl), Bool.false_or]
    · rw [if_neg hnl, if_neg hnl, Bool.or_false]

/-- A list starting with a dot never matches the regex (the first part is
empty, and with at least two parts it is a non-final label). -/
theorem reMatch_head_dot (t : List Char) : reMatch ('.' :: t) = false := by
  cases hs : splitDots t with
  | nil => exact absurd hs (splitDots_ne_nil t)
  | cons q qs =>
    unfold reMatch
    rw [splitDots_cons_dot, hs, List.reverse_cons]
    cases hrev : (q :: qs).reverse with
    | nil => simp at hrev
    | cons r rs =>
      have hall : (rs ++ [[]]).all labelOK = false := by
        rw [List.all_append]
        simp [labelOK]
      exact (by rw [hall]; simp :
        (!(rs ++ [[]]).isEmpty && (rs ++ [[]]).all labelOK && tldOK r) = false)

/-- Appending a trailing dot appends an empty part to the dot-split. -/
theorem splitDots_append_dot : ∀ (l : List Char),
    splitDots (l ++ ['.']) = splitDots l ++ [[]] := by
  intro l
  induction l with
  | nil => rfl
  | cons a t ih =>
    by_cases ha : a = '.'
    · subst ha
      rw [List.cons_append, splitDots_cons_dot, splitDots_cons_dot, ih, List.cons_append]
    · cases hs : splitDots t with
      | nil => exact absurd hs (splitDots_ne_nil t)
      | cons q qs =>
        rw [List.cons_append,
          splitDots_cons_ne a (t ++ ['.']) ha q (qs ++ [[]]) (by rw [ih, hs]; rfl),
          splitDots_cons_ne a t ha q qs hs, List.cons_append]

/-- A list ending in a dot never matches the regex (the TLD part is empty). -/
theorem reMatch_append_dot (t : List Char) : reMatch (t ++ ['.']) = false := by
  unfold reMatch
  rw [splitDots_append_dot, List.reverse_append]
  simp only [List.reverse_cons, List.reverse_nil, List.nil_append, List.singleton_append]
  show (!((splitDots t).reverse).isEmpty && ((splitDots t).reverse).all labelOK
    && tldOK []) = false
  have h0 : tldOK [] = false := rfl
  rw [h0, Bool.and_false]

/-- C7 (amended). `validate_domain` accepts exactly the strings that, after
removing one trailing newline when present, match the spec grammar: at least
two dot-separated parts, every leading part a nonempty
alphanumeric-with-internal-hyphens label with alphanumeric first and last
characters, and a final part of at least two ASCII letters. Consequently an
accepted string contains no whitespace outside that one trailing newline, and
strings with a leading dot, a trailing dot, or no qualifying TLD — and the
empty string — are rejected, while well-formed names are accepted. The
amendment: because Python `$` also matches just before one string-final
newline, a valid domain followed by a single `"\n"` is accepted, so the
claimed "contains whitespace implies rejected" holds only for whitespace
other than that one trailing newline. -/
theorem c7_domain_grammar :
    (∀ s : String, validate_domain s = true ↔ specGood (stripNL s.toList) = true) ∧
    (∀ s : String, validate_domain s = true →
        ∀ c ∈ stripNL s.toList, pySpace c = false) ∧
    (∀ t : List Char, validate_domain (String.mk ('.' :: t)) = false) ∧
    (∀ t : List Char, validate_domain (String.mk (t ++ ['.'])) = false) ∧
    validate_domain "" = false ∧
    (validate_domain "example.com" = true ∧ validate_domain "sub.example.co.uk" = true ∧
      validate_domain "test-domain.dev" = true) := by
  refine ⟨?_, ?_, ?_, ?_, by decide, by decide, by decide, by decide⟩
  · intro s
    rw [validate_eq_core, reMatch_eq_specGood]
  · intro s hv
    rw [validate_eq_core, reMatch_eq_specGood] at hv
    exact specGood_no_space hv
  · intro t
    rw [validate_eq_core]
    have htl : (String.mk ('.' :: t)).toList = '.' :: t := rfl
    rw [htl]
    unfold stripNL
    by_cases h : ((('.' :: t).getLast? == some '\n') = true)
    · rw [if_pos h]
      cases t with
      | nil => decide
      | cons b t2 =>
        rw [List.dropLast_cons₂]
        exact reMatch_head_dot _
    · rw [if_neg h]
      exact reMatch_head_dot t
  · intro t
    rw [validate_eq_core]
    have htl : (String.mk (t ++ ['.'])).toList = t ++ ['.'] := rfl
    rw [htl]
    unfold stripNL
    have hlast : (t ++ ['.']).getLast? = some '.' := by simp
    rw [hlast]
    rw [if_neg (by decide)]
    exact reMatch_append_dot t

/-- C7 witness: the characterization applied at the concrete accepted string
`"example.com\n"`. -/
theorem c7_witness :
    validate_domain "example.com\n" = true ↔
      specGood (stripNL "example.com\n".toList) = true :=
  c7_domain_grammar.1 "example.com\n"

/-- C7 counterexample to the claim as stated: `"example.com\n"` contains a
whitespace character, yet `validate_domain` returns `True` on it (Python `$`
matches just before a string-final newline). -/
theorem c7_cex :
    validate_domain "example.com\n" = true ∧
      "example.com\n".toList.any pySpace = true := by
  exact ⟨by decide, by decide⟩

/-! ## Lemmas about the cache -/

/-- A corrupt (unparsable) cache file is deleted and reported as a miss. -/
theorem cacheGet_malformed (fs : FS) (d : String) (now : Int)
    (h : fsLookup fs (cacheKey d) = some FileData.malformed) :
    Cache.get fs d now = (GetResult.miss, fsErase fs (cacheKey d)) := by
  simp [Cache.get, h]

/-- A cache file whose object lacks `checked_at` is deleted (the `KeyError`
is caught) and reported as a miss. -/
theorem cacheGet_noField (fs : FS) (d : String) (now : Int)
    (kvs : List (String × Json))
    (h : fsLookup fs (cacheKey d) = some (FileData.value (Json.obj kvs)))
    (h2 : jsonGet kvs "checked_at" = none) :
    Cache.get fs d now = (GetResult.miss, fsErase fs (cacheKey d)) := by
  simp [Cache.get, h, h2]

/-- A cache file whose `checked_at` string fails to parse is deleted (the
`ValueError` is caught) and reported as a miss. -/
theorem cacheGet_badString (fs : FS) (d : String) (now : Int)
    (kvs : List (String × Json)) (s : String)
    (h : fsLookup fs (cacheKey d) = some (FileData.value (Json.obj kvs)))
    (h2 : jsonGet kvs "checked_at" = some (Json.str s))
    (h3 : fromisoformat (replaceZ s) = none) :
    Cache.get fs d now = (GetResult.miss, fsErase fs (cacheKey d)) := by
  simp [Cache.get, h, h2, h3]

/-- A cache file with a parseable `checked_at` is a hit exactly when its age
is within the TTL; the directory is untouched either way. -/
theorem cacheGet_fresh (fs : FS) (d : String) (now : Int)
    (kvs : List (String × Json)) (s : String) (wall : Int) (tz : Option Int)
    (h : fsLookup fs (cacheKey d) = some (FileData.value (Json.obj kvs)))
    (h2 : jsonGet kvs "checked_at" = some (Json.str s))
    (h3 : fromisoformat (replaceZ s) = some (wall, tz)) :
    Cache.get fs d now =
      (if now - wall > Cache.ttlMicros then (GetResult.miss, fs)
        else (GetResult.hit (Json.obj kvs), fs)) := by
  simp [Cache.get, h, h2, h3]

/-- Erasing a file really removes it. -/
theorem fsLookup_fsErase (fs : FS) (k : String) :
    fsLookup (fsErase fs k) k = none := by
  have hnone : List.find? (fun p => p.fst == k) (fsErase fs k) = none := by
    rw [List.find?_eq_none]
    intro x hx
    have hx2 : x ∈ List.filter (fun p => p.fst != k) fs := hx
    have hf := List.of_mem_filter hx2
    simpa using hf
  simp [fsLookup, hnone]

/-- Writing a file makes it present with the written content. -/
theorem fsLookup_fsInsert (fs : FS) (k : String) (v : FileData) :
    fsLookup (fsInsert fs k v) k = some v := by
  simp [fsInsert, fsLookup]

/-- C1 (amended). `Cache.get` deletes the file and reports absent, without
raising, when the content fails to parse as JSON, when the parsed object
lacks the `checked_at` field, or when `checked_at` is a string that fails
datetime parsing. The amendment: a `checked_at` of non-string type is NOT
treated as corruption — `.replace` on it raises `AttributeError`, which the
`except (json.JSONDecodeError, KeyError, ValueError)` clause does not catch,
so it escapes to the caller (and a file whose top-level JSON value is not an
object likewise escapes with `TypeError` from the subscript); in both escape
cases the file is not deleted. -/
theorem c1_cache_corruption (fs : FS) (d : String) (now : Int) :
    (fsLookup fs (cacheKey d) = some FileData.malformed →
      Cache.get fs d now = (GetResult.miss, fsErase fs (cacheKey d))) ∧
    (∀ kvs, fsLookup fs (cacheKey d) = some (FileData.value (Json.obj kvs)) →
      jsonGet kvs "checked_at" = none →
      Cache.get fs d now = (GetResult.miss, fsErase fs (cacheKey d))) ∧
    (∀ kvs s, fsLookup fs (cacheKey d) = some (FileData.value (Json.obj kvs)) →
      jsonGet kvs "checked_at" = some (Json.str s) →
      fromisoformat (replaceZ s) = none →
      Cache.get fs d now = (GetResult.miss, fsErase fs (cacheKey d))) ∧
    (∀ kvs v, fsLookup fs (cacheKey d) = some (FileData.value (Json.obj kvs)) →
      jsonGet kvs "checked_at" = some v → (∀ s, v ≠ Json.str s) →
      Cache.get fs d now = (GetResult.raises PyExc.attributeError, fs)) ∧
    (∀ j, fsLookup fs (cacheKey d) = some (FileData.value j) →
      (∀ kvs, j ≠ Json.obj kvs) →
      Cache.get fs d now = (GetResult.raises PyExc.typeError, fs)) := by
  refine ⟨?_, ?_, ?_, ?_, ?_⟩
  · exact cacheGet_malformed fs d now
  · intro kvs h h2
    exact cacheGet_noField fs d now kvs h h2
  · intro kvs s h h2 h3
    exact cacheGet_badString fs d now kvs s h h2 h3
  · intro kvs v h h2 hns
    cases v with
    | str s => exact absurd rfl (hns s)
    | null => simp [Cache.get, h, h2]
    | bool b => simp [Cache.get, h, h2]
    | num n => simp [Cache.get, h, h2]
    | arr l => simp [Cache.get, h, h2]
    | obj kv => simp [Cache.get, h, h2]
  · intro j h hno
    cases j with
    | obj kvs => exact absurd rfl (hno kvs)
    | null => simp [Cache.get, h]
    | bool b => simp [Cache.get, h]
    | num n => simp [Cache.get, h]
    | str s => simp [Cache.get, h]
    | arr l => simp [Cache.get, h]

/-- C1 witness: the corruption branches of `c1_cache_corruption` applied at a
concrete unparsable cache file. -/
theorem c1_witness :
    Cache.get [("b.com.json", FileData.malformed)] "b.com" 0 =
      (GetResult.miss, fsErase [("b.com.json", FileData.malformed)] (cacheKey "b.com")) :=
  (c1_cache_corruption [("b.com.json", FileData.malformed)] "b.com" 0).1 rfl

/-- C1 counterexample to the claim as stated: a cache file whose `checked_at`
is a JSON number (a timestamp of the wrong type) makes `Cache.get` raise
`AttributeError` instead of deleting the file and returning `None`. -/
theorem c1_cex :
    Cache.get [("a.com.json", FileData.value (Json.obj [("checked_at", Json.num 5)]))]
        "a.com" 0 =
      (GetResult.raises PyExc.attributeError,
        [("a.com.json", FileData.value (Json.obj [("checked_at", Json.num 5)]))]) := rfl

/-- C2 (confirmed). For a cache entry whose `checked_at` parses, `Cache.get`
misses exactly when the age `now - checked_at` strictly exceeds 24 hours, and
returns the entry (a hit) when the age is 24 hours or less: the boundary at
exactly 24 hours is a hit. (Per the source, `checked_at.replace(tzinfo=None)`
keeps the wall-clock reading of the timestamp, which is what `wall` is.) -/
theorem c2_cache_expiry (fs : FS) (d : String) (now : Int)
    (kvs : List (String × Json)) (s : String) (wall : Int) (tz : Option Int)
    (h : fsLookup fs (cacheKey d) = some (FileData.value (Json.obj kvs)))
    (h2 : jsonGet kvs "checked_at" = some (Json.str s))
    (h3 : fromisoformat (replaceZ s) = some (wall, tz)) :
    ((Cache.get fs d now).fst = GetResult.miss ↔ now - wall > Cache.ttlMicros) ∧
    (now - wall ≤ Cache.ttlMicros →
      Cache.get fs d now = (GetResult.hit (Json.obj kvs), fs)) := by
  have hc := cacheGet_fresh fs d now kvs s wall tz h h2 h3
  constructor
  · rw [hc]
    by_cases hage : now - wall > Cache.ttlMicros
    · simp [hage]
    · simp [hage]
  · intro hle
    rw [hc, if_neg (by omega)]

/-- C2 witness: a concrete entry aged exactly 24 hours is a hit. -/
theorem c2_witness :
    Cache.get
        [("c.com.json", FileData.value
          (Json.obj [("checked_at", Json.str "2024-01-02T00:00:00Z")]))]
        "c.com" (wallMicros 2024 1 2 0 0 0 0 + Cache.ttlMicros) =
      (GetResult.hit (Json.obj [("checked_at", Json.str "2024-01-02T00:00:00Z")]),
        [("c.com.json", FileData.value
          (Json.obj [("checked_at", Json.str "2024-01-02T00:00:00Z")]))]) :=
  (c2_cache_expiry
      [("c.com.json", FileData.value
        (Json.obj [("checked_at", Json.str "2024-01-02T00:00:00Z")]))]
      "c.com" (wallMicros 2024 1 2 0 0 0 0 + Cache.ttlMicros)
      [("checked_at", Json.str "2024-01-02T00:00:00Z")] "2024-01-02T00:00:00Z"
      (wallMicros 2024 1 2 0 0 0 0) (some 0) rfl rfl rfl).2 (by omega)

/-- C8 (confirmed). An entry older than 24 hours is reported absent while the
file stays on disk untouched, in contrast with the corruption path, which
deletes the file; an expired file is only replaced by a later `Cache.set` of
the same domain. -/
theorem c8_soft_expiry :
    (∀ (fs : FS) (d : String) (now : Int) kvs s (wall : Int) tz,
      fsLookup fs (cacheKey d) = some (FileData.value (Json.obj kvs)) →
      jsonGet kvs "checked_at" = some (Json.str s) →
      fromisoformat (replaceZ s) = some (wall, tz) →
      now - wall > Cache.ttlMicros →
      Cache.get fs d now = (GetResult.miss, fs)) ∧
    (∀ (fs : FS) (d : String) (now : Int),
      fsLookup fs (cacheKey d) = some FileData.malformed →
      Cache.get fs d now = (GetResult.miss, fsErase fs (cacheKey d)) ∧
        fsLookup (fsErase fs (cacheKey d)) (cacheKey d) = none) ∧
    (∀ (fs : FS) (d : String) (j : Json),
      fsLookup (Cache.set fs d j) (cacheKey d) = some (FileData.value j)) := by
  refine ⟨?_, ?_, ?_⟩
  · intro fs d now kvs s wall tz h h2 h3 hage
    rw [cacheGet_fresh fs d now kvs s wall tz h h2 h3, if_pos hage]
  · intro fs d now h
    exact ⟨cacheGet_malformed fs d now h, fsLookup_fsErase fs (cacheKey d)⟩
  · intro fs d j
    exact fsLookup_fsInsert fs (cacheKey d) (FileData.value j)

/-- C8 witness: a concrete entry aged one microsecond over 24 hours is a miss
and the directory is returned unchanged. -/
theorem c8_witness :
    Cache.get
        [("e.com.json", FileData.value
          (Json.obj [("checked_at", Json.str "2024-01-02T00:00:00Z")]))]
        "e.com" (wallMicros 2024 1 2 0 0 0 0 + Cache.ttlMicros + 1) =
      (GetResult.miss,
        [("e.com.json", FileData.value
          (Json.obj [("checked_at", Json.str "2024-01-02T00:00:00Z")]))]) :=
  c8_soft_expiry.1
    [("e.com.json", FileData.value
      (Json.obj [("checked_at", Json.str "2024-01-02T00:00:00Z")]))]
    "e.com" (wallMicros 2024 1 2 0 0 0 0 + Cache.ttlMicros + 1)
    [("checked_at", Json.str "2024-01-02T00:00:00Z")] "2024-01-02T00:00:00Z"
    (wallMicros 2024 1 2 0 0 0 0) (some 0) rfl rfl rfl (by omega)

/-! ## Lemmas about the whois client -/

/-- With a truthy token, a 200 response with an object body reaches the
provider-status/registered dispatch. -/
theorem lookup_200_obj (token : Option String) (domain : String)
    (kvs : List (String × Json)) (ht : tokenTruthy token = true) :
    WhoisAPI.lookup token domain (HttpOutcome.response 200 (Json.obj kvs)) =
      (if !pyEqZeroOpt (jsonGet kvs "status") then
        (LookupOutcome.ok (errDictJ "api_error"
          (jsonGetD kvs "status_desc" (Json.str "API error"))
          "Check API status or try again later."), true)
      else if !pyTruthy (jsonGetD kvs "registered" (Json.bool true)) then
        (LookupOutcome.ok [("status", Json.str "available"),
          ("domain", Json.str domain)], true)
      else match parseTaken kvs domain with
        | .ok d => (LookupOutcome.ok d, true)
        | .error e => (LookupOutcome.raises e, true)) := by
  simp [WhoisAPI.lookup, ht]

/-- The contact loop agrees with the spec-side registrant extraction when
every contact entry is an object. -/
theorem regLoop_spec : ∀ (l : List Json), (∀ c ∈ l, ∃ kv, c = Json.obj kv) →
    regLoop l = Except.ok (specRegistrant l) := by
  intro l
  induction l with
  | nil => intro _; rfl
  | cons c rest ih =>
    intro h
    obtain ⟨kv, rfl⟩ := h _ (List.mem_cons_self c rest)
    have hred : regLoop (Json.obj kv :: rest) =
        (if typeIsRegistrant (jsonGet kv "type") = true then
          Except.ok (jsonGetD kv "organization" (jsonGetD kv "name" (Json.str "Unknown")))
        else regLoop rest) := rfl
    by_cases hreg : typeIsRegistrant (jsonGet kv "type") = true
    · have hfind : List.find? isRegContact (Json.obj kv :: rest) = some (Json.obj kv) :=
        List.find?_cons_of_pos _ (by simpa [isRegContact] using hreg)
      have hspec : specRegistrant (Json.obj kv :: rest) =
          jsonGetD kv "organization" (jsonGetD kv "name" (Json.str "Unknown")) := by
        unfold specRegistrant
        rw [hfind]
      rw [hred, if_pos hreg, hspec]
    · have hfind : List.find? isRegContact (Json.obj kv :: rest) =
          List.find? isRegContact rest :=
        List.find?_cons_of_neg _ (by simpa [isRegContact] using hreg)
      have hspec : specRegistrant (Json.obj kv :: rest) = specRegistrant rest := by
        unfold specRegistrant
        rw [hfind]
      rw [hred, if_neg hreg, hspec]
      exact ih (fun x hx => h x (List.mem_cons_of_mem _ hx))

/-- Expiration extraction on a string value agrees with the spec-side
truncation (`"Unknown"` itself contains no space, so the extra
`expires != "Unknown"` test in the source changes nothing). -/
theorem extractExpires_str (es : String) :
    extractExpires (Json.str es) = Except.ok (Json.str (specExpires es)) := by
  have hred : extractExpires (Json.str es) =
      (if (es != "Unknown" && hasSpaceChar es) = true then
        Except.ok (Json.str (firstSpaceField es))
      else Except.ok (Json.str es)) := rfl
  rw [hred]
  unfold specExpires
  by_cases hu : es = "Unknown"
  · subst hu
    rfl
  · have hne : (es != "Unknown") = true := by simp [hu]
    by_cases hsp : hasSpaceChar es = true
    · rw [if_pos (by simp [hne, hsp]), if_pos hsp]
    · rw [if_neg (by simp [hsp]), if_neg (by simpa using hsp)]

/-- A successful `parseTaken` always returns a dictionary whose `status` is
`"taken"`. -/
theorem parseTaken_status (kvs : List (String × Json)) (d : String)
    (rkvs : List (String × Json)) (h : parseTaken kvs d = Except.ok rkvs) :
    jsonGet rkvs "status" = some (Json.str "taken") := by
  unfold parseTaken at h
  cases h1 : extractRegistrant (jsonGetD kvs "contacts" (Json.arr [])) with
  | error e => rw [h1] at h; exact Except.noConfusion h
  | ok reg =>
    cases h2 : extractExpires (jsonGetD kvs "date_expires" (Json.str "Unknown")) with
    | error e => rw [h1, h2] at h; exact Except.noConfusion h
    | ok exp =>
      rw [h1, h2] at h
      have h3 : Except.ok (ε := PyExc) [("status", Json.str "taken"), ("domain", Json.str d),
          ("registrant", reg), ("expires", exp),
          ("registrar", jsonGetD kvs "registrar" (Json.str "Unknown"))] = Except.ok rkvs := h
      obtain rfl : _ = rkvs := Except.ok.inj h3
      rfl

/-- With a truthy token, a 200 success response reporting the domain
registered produces the `taken` dictionary, with the registrant and
expiration extraction in spec-side form. -/
theorem lookup_taken_fields (token : Option String) (domain : String)
    (kvs : List (String × Json)) (cl : List Json) (es : String)
    (ht : tokenTruthy token = true)
    (hs : pyEqZeroOpt (jsonGet kvs "status") = true)
    (hr : pyTruthy (jsonGetD kvs "registered" (Json.bool true)) = true)
    (hc : jsonGetD kvs "contacts" (Json.arr []) = Json.arr cl)
    (hobj : ∀ c ∈ cl, ∃ kv, c = Json.obj kv)
    (he : jsonGetD kvs "date_expires" (Json.str "Unknown") = Json.str es) :
    WhoisAPI.lookup token domain (HttpOutcome.response 200 (Json.obj kvs)) =
      (LookupOutcome.ok [("status", Json.str "taken"), ("domain", Json.str domain),
        ("registrant", specRegistrant cl),
        ("expires", Json.str (specExpires es)),
        ("registrar", jsonGetD kvs "registrar" (Json.str "Unknown"))], true) := by
  have hreg : extractRegistrant (jsonGetD kvs "contacts" (Json.arr [])) =
      Except.ok (specRegistrant cl) := by
    rw [hc]
    exact regLoop_spec cl hobj
  have hexp : extractExpires (jsonGetD kvs "date_expires" (Json.str "Unknown")) =
      Except.ok (Json.str (specExpires es)) := by
    rw [he]
    exact extractExpires_str es
  have hpt : parseTaken kvs domain = Except.ok
      [("status", Json.str "taken"), ("domain", Json.str domain),
        ("registrant", specRegistrant cl),
        ("expires", Json.str (specExpires es)),
        ("registrar", jsonGetD kvs "registrar" (Json.str "Unknown"))] := by
    unfold parseTaken
    rw [hreg, hexp]
    rfl
  rw [lookup_200_obj token domain kvs ht]
  rw [if_neg (by simp [hs]), if_neg (by simp [hr]), hpt]

/-- C4 (confirmed). With an absent (or empty) API credential,
`WhoisAPI.lookup` returns the `configuration_error` result, with its message
and suggested action, and the transport is never invoked (the second
component is `false`). -/
theorem c4_config_error (token : Option String) (domain : String)
    (net : HttpOutcome) (h : tokenTruthy token = false) :
    WhoisAPI.lookup token domain net =
      (LookupOutcome.ok (errDictJ "configuration_error"
        (Json.str "API token not set. Set WHOAPI_TOKEN environment variable.")
        "Run: export WHOAPI_TOKEN=your_token_here"), false) := by
  simp [WhoisAPI.lookup, h]

/-- C4 witness: the theorem applied at a `None` token and a transport that
would time out if invoked. -/
theorem c4_witness :
    WhoisAPI.lookup none "example.com" HttpOutcome.timeout =
      (LookupOutcome.ok (errDictJ "configuration_error"
        (Json.str "API token not set. Set WHOAPI_TOKEN environment variable.")
        "Run: export WHOAPI_TOKEN=your_token_here"), false) :=
  c4_config_error none "example.com" HttpOutcome.timeout rfl

/-- C5 (confirmed). On a 200 response whose provider status is success and
which reports the domain registered, with a contact list of objects and a
string (or absent) expiration, the `taken` result carries: the registrant of
the first contact whose role is `"registrant"` (organization preferred, then
name, else `"Unknown"`, also when no such contact exists); the expiration
truncated at the first space when one is present (`"Unknown"` when the field
is absent, which is the default the source supplies); and the registrar
defaulting to `"Unknown"` when absent. -/
theorem c5_taken_extraction (token : Option String) (domain : String)
    (kvs : List (String × Json)) (cl : List Json) (es : String)
    (ht : tokenTruthy token = true)
    (hs : pyEqZeroOpt (jsonGet kvs "status") = true)
    (hr : pyTruthy (jsonGetD kvs "registered" (Json.bool true)) = true)
    (hc : jsonGetD kvs "contacts" (Json.arr []) = Json.arr cl)
    (hobj : ∀ c ∈ cl, ∃ kv, c = Json.obj kv)
    (he : jsonGetD kvs "date_expires" (Json.str "Unknown") = Json.str es) :
    WhoisAPI.lookup token domain (HttpOutcome.response 200 (Json.obj kvs)) =
      (LookupOutcome.ok [("status", Json.str "taken"), ("domain", Json.str domain),
        ("registrant", specRegistrant cl),
        ("expires", Json.str (specExpires es)),
        ("registrar", jsonGetD kvs "registrar" (Json.str "Unknown"))], true) :=
  lookup_taken_fields token domain kvs cl es ht hs hr hc hobj he

/-- C5 witness: the end-to-end example — registrant contact with organization
`"Example Corp"`, expiration `"2027-01-15 00:00:00"`, registrar
`"Example Registrar Inc"` — yields `registrant="Example Corp"`,
`expires="2027-01-15"`, `registrar="Example Registrar Inc"`. -/
theorem c5_witness :
    WhoisAPI.lookup (some "tok") "example.com" (HttpOutcome.response 200 (Json.obj
        [("status", Json.num 0), ("registered", Json.bool true),
         ("registrar", Json.str "Example Registrar Inc"),
         ("date_expires", Json.str "2027-01-15 00:00:00"),
         ("contacts", Json.arr [Json.obj [("type", Json.str "registrant"),
           ("organization", Json.str "Example Corp")]])])) =
      (LookupOutcome.ok [("status", Json.str "taken"), ("domain", Json.str "example.com"),
        ("registrant", Json.str "Example Corp"),
        ("expires", Json.str "2027-01-15"),
        ("registrar", Json.str "Example Registrar Inc")], true) :=
  c5_taken_extraction (some "tok") "example.com"
    [("status", Json.num 0), ("registered", Json.bool true),
     ("registrar", Json.str "Example Registrar Inc"),
     ("date_expires", Json.str "2027-01-15 00:00:00"),
     ("contacts", Json.arr [Json.obj [("type", Json.str "registrant"),
       ("organization", Json.str "Example Corp")]])]
    [Json.obj [("type", Json.str "registrant"),
      ("organization", Json.str "Example Corp")]]
    "2027-01-15 00:00:00" rfl rfl rfl rfl
    (by
      intro c hcm
      rw [List.mem_singleton] at hcm
      exact ⟨_, hcm⟩)
    rfl

/-- C9 (confirmed). With a truthy token, every failure at or after the
network boundary yields an `error`/`api_error` result rather than raising: a
transport timeout (message mentioning "timeout"), another transport failure
(message embedding the underlying cause), HTTP 401 (message mentioning the
invalid API key), HTTP 429 (message mentioning the rate limit), any other
non-200 status (message embedding the raw code), and a 200 response whose
provider status is not success (message carrying the provider status
description). -/
theorem c9_api_error_mapping (token : Option String) (domain : String)
    (ht : tokenTruthy token = true) :
    (WhoisAPI.lookup token domain HttpOutcome.timeout =
        (LookupOutcome.ok (errDictJ "api_error"
          (Json.str "API request timeout after 10 seconds.")
          "Check your internet connection and try again."), true) ∧
      strMentions "API request timeout after 10 seconds." "timeout" = true) ∧
    (∀ m, WhoisAPI.lookup token domain (HttpOutcome.reqError m) =
        (LookupOutcome.ok (errDictJ "api_error"
          (Json.str ("Network error: " ++ m))
          "Check your internet connection."), true)) ∧
    (∀ body, WhoisAPI.lookup token domain (HttpOutcome.response 401 body) =
        (LookupOutcome.ok (errDictJ "api_error"
          (Json.str "API key invalid or missing.")
          "Check your WHOAPI_TOKEN environment variable."), true) ∧
      strMentions "API key invalid or missing." "API key invalid" = true) ∧
    (∀ body, WhoisAPI.lookup token domain (HttpOutcome.response 429 body) =
        (LookupOutcome.ok (errDictJ "api_error"
          (Json.str "API rate limit reached.")
          "Try again later. Cached results still work!"), true) ∧
      strMentions "API rate limit reached." "rate limit" = true) ∧
    (∀ (code : Nat) body, code ≠ 200 → code ≠ 401 → code ≠ 429 →
      WhoisAPI.lookup token domain (HttpOutcome.response code body) =
        (LookupOutcome.ok (errDictJ "api_error"
          (Json.str ("API returned status " ++ toString code))
          "Try again later or check WhoAPI status."), true)) ∧
    (∀ kvs desc, pyEqZeroOpt (jsonGet kvs "status") = false →
      jsonGet kvs "status_desc" = some desc →
      WhoisAPI.lookup token domain (HttpOutcome.response 200 (Json.obj kvs)) =
        (LookupOutcome.ok (errDictJ "api_error" desc
          "Check API status or try again later."), true)) := by
  refine ⟨⟨?_, by decide⟩, ?_, ?_, ?_, ?_, ?_⟩
  · simp [WhoisAPI.lookup, ht]
  · intro m
    simp [WhoisAPI.lookup, ht]
  · intro body
    refine ⟨?_, by decide⟩
    simp [WhoisAPI.lookup, ht]
  · intro body
    refine ⟨?_, by decide⟩
    simp [WhoisAPI.lookup, ht]
  · intro code body h200 h401 h429
    simp [WhoisAPI.lookup, ht, h200, h401, h429]
  · intro kvs desc hz hd
    rw [lookup_200_obj token domain kvs ht, if_pos (by simp [hz])]
    simp [jsonGetD, hd]

/-- C9 witness: the timeout case applied at a concrete token and domain. -/
theorem c9_witness :
    WhoisAPI.lookup (some "t") "example.com" HttpOutcome.timeout =
        (LookupOutcome.ok (errDictJ "api_error"
          (Json.str "API request timeout after 10 seconds.")
          "Check your internet connection and try again."), true) ∧
      strMentions "API request timeout after 10 seconds." "timeout" = true :=
  (c9_api_error_mapping (some "t") "example.com" rfl).1

/-- C10 (amended). On a 200 success response with no `registered` field at
all, `data.get("registered", True)` defaults to true, so the source treats
the domain as registered: the result is never `available`; it is the `taken`
result whenever the optional `contacts` and `date_expires` fields are
well-typed (a list of objects resp. a string or absent). The amendment: with
an ill-typed `contacts` (or `date_expires`) value the extraction raises (the
loop iterates a non-list or calls `.get` on a non-dictionary), so "returns a
taken result" does not hold for every such response — but "never available"
does. -/
theorem c10_registered_default (token : Option String) (domain : String)
    (kvs : List (String × Json))
    (ht : tokenTruthy token = true)
    (hs : pyEqZeroOpt (jsonGet kvs "status") = true)
    (hnr : jsonGet kvs "registered" = none) :
    (∀ rkvs b, WhoisAPI.lookup token domain
        (HttpOutcome.response 200 (Json.obj kvs)) = (LookupOutcome.ok rkvs, b) →
      jsonGet rkvs "status" = some (Json.str "taken")) ∧
    (∀ cl es, jsonGetD kvs "contacts" (Json.arr []) = Json.arr cl →
      (∀ c ∈ cl, ∃ kv, c = Json.obj kv) →
      jsonGetD kvs "date_expires" (Json.str "Unknown") = Json.str es →
      ∃ rkvs, WhoisAPI.lookup token domain
          (HttpOutcome.response 200 (Json.obj kvs)) = (LookupOutcome.ok rkvs, true) ∧
        jsonGet rkvs "status" = some (Json.str "taken")) := by
  have hreg : pyTruthy (jsonGetD kvs "registered" (Json.bool true)) = true := by
    simp [jsonGetD, hnr, pyTruthy]
  constructor
  · intro rkvs b hlk
    rw [lookup_200_obj token domain kvs ht, if_neg (by simp [hs]),
      if_neg (by simp [hreg])] at hlk
    cases hpt : parseTaken kvs domain with
    | error e =>
      rw [hpt] at hlk
      exact LookupOutcome.noConfusion (congrArg Prod.fst hlk)
    | ok d2 =>
      rw [hpt] at hlk
      have h1 : LookupOutcome.ok d2 = LookupOutcome.ok rkvs := congrArg Prod.fst hlk
      obtain rfl : d2 = rkvs := LookupOutcome.ok.inj h1
      exact parseTaken_status kvs domain d2 hpt
  · intro cl es hc hobj he
    refine ⟨[("status", Json.str "taken"), ("domain", Json.str domain),
      ("registrant", specRegistrant cl),
      ("expires", Json.str (specExpires es)),
      ("registrar", jsonGetD kvs "registrar" (Json.str "Unknown"))],
      lookup_taken_fields token domain kvs cl es ht hs hreg hc hobj he, rfl⟩

/-- C10 witness: a 200 success response carrying only `status: 0` (no
`registered` field) yields the `taken` dictionary with all fields defaulted
to `"Unknown"`; its `status` is `"taken"`. -/
theorem c10_witness :
    jsonGet [("status", Json.str "taken"), ("domain", Json.str "a.com"),
      ("registrant", Json.str "Unknown"), ("expires", Json.str "Unknown"),
      ("registrar", Json.str "Unknown")] "status" = some (Json.str "taken") :=
  (c10_registered_default (some "t") "a.com" [("status", Json.num 0)] rfl rfl rfl).1
    [("status", Json.str "taken"), ("domain", Json.str "a.com"),
      ("registrant", Json.str "Unknown"), ("expires", Json.str "Unknown"),
      ("registrar", Json.str "Unknown")] true rfl

/-- C10 counterexample to the claim as stated: a 200 success response with no
`registered` field whose `contacts` value is a number makes the extraction
loop iterate a non-iterable, so `lookup` raises `TypeError` instead of
returning a `taken` result. -/
theorem c10_cex :
    WhoisAPI.lookup (some "t") "a.com" (HttpOutcome.response 200
        (Json.obj [("status", Json.num 0), ("contacts", Json.num 5)])) =
      (LookupOutcome.raises PyExc.typeError, true) := rfl

/-! ## Lemmas about the orchestrator -/

/-- Stamping `checked_at` makes the field present with the stamp. -/
theorem jsonGet_objInsert : ∀ (kvs : List (String × Json)) (k : String) (v : Json),
    jsonGet (objInsert kvs k v) k = some v := by
  intro kvs k v
  induction kvs with
  | nil => simp [objInsert, jsonGet]
  | cons p t ih =>
    by_cases h : p.fst = k
    · obtain ⟨k', v'⟩ := p
      simp only at h
      subst h
      simp [objInsert, jsonGet]
    · obtain ⟨k', v'⟩ := p
      simp only at h
      have hb : (k' == k) = false := by simp [h]
      simp only [objInsert, hb, Bool.false_eq_true, if_false]
      simpa [jsonGet, List.find?_cons, hb] using ih

/-- An `available`/`taken` status is not the `error` status. -/
theorem stAvail_not_error (st : Json) (h : stAvailTaken st = true) :
    stIsError st = false := by
  cases st <;> simp [stAvailTaken, stIsError] at h ⊢
  rcases h with rfl | rfl <;> decide

/-- C3 (amended). Every terminating run prints exactly one result dictionary
and exits 0 or 1: the failed version check, a wrong argument count, and a
malformed domain each print their error dictionary and exit 1; a cache hit
prints the cached dictionary and exits 0 — regardless of the status stored in
it, which is the amendment: on the hit path the source calls `sys.exit(0)`
without inspecting `status`, so a cache file whose entry has `status:
"error"` is printed with exit code 0; on the fresh-lookup path the exit code
is 1 exactly when the emitted status is `"error"` (0 for
available/taken). Runs in which the cache read or the provider-response
parsing raises crash without printing and are excluded (see
`c1_cache_corruption`, `c10_registered_default`). -/
theorem c3_exit_codes :
    (∀ argv fs now token net,
      mainRun false argv fs now token net = MainOutcome.exit sysErrJson 1 fs) ∧
    (∀ argv fs now token net, argv.length ≠ 2 →
      mainRun true argv fs now token net = MainOutcome.exit noDomainJson 1 fs) ∧
    (∀ (p d : String) fs now token net, validate_domain d = false →
      mainRun true [p, d] fs now token net = MainOutcome.exit invalidJson 1 fs) ∧
    (∀ (p d : String) fs now token net j fs1, validate_domain d = true →
      Cache.get fs d now = (GetResult.hit j, fs1) → pyTruthy j = true →
      mainRun true [p, d] fs now token net = MainOutcome.exit j 0 fs1) ∧
    (∀ (p d : String) fs now token net fs1 rkvs used st, validate_domain d = true →
      Cache.get fs d now = (GetResult.miss, fs1) →
      WhoisAPI.lookup token d net = (LookupOutcome.ok rkvs, used) →
      jsonGet rkvs "status" = some st →
      ∃ printed fs2, mainRun true [p, d] fs now token net =
        MainOutcome.exit printed (if stIsError st = true then 1 else 0) fs2) := by
  refine ⟨?_, ?_, ?_, ?_, ?_⟩
  · intro argv fs now token net
    simp [mainRun]
  · intro argv fs now token net hlen
    rcases argv with _ | ⟨a, _ | ⟨b, _ | ⟨c, t⟩⟩⟩
    · simp [mainRun]
    · simp [mainRun]
    · exact absurd (by simp : ([a, b] : List String).length = 2) hlen
    · simp [mainRun]
  · intro p d fs now token net hv
    simp [mainRun, hv]
  · intro p d fs now token net j fs1 hv hc hj
    simp [mainRun, hv, hc, hj]
  · intro p d fs now token net fs1 rkvs used st hv hc hl hs
    by_cases hat : stAvailTaken st = true
    · refine ⟨Json.obj (objInsert rkvs "checked_at" (Json.str (isoZ now))),
        Cache.set fs1 d (Json.obj (objInsert rkvs "checked_at" (Json.str (isoZ now)))), ?_⟩
      rw [show (if stIsError st = true then 1 else 0) = 0 by
        rw [stAvail_not_error st hat]
        rfl]
      simp [mainRun, hv, hc, afterMiss, hl, hs, hat]
    · refine ⟨Json.obj rkvs, fs1, ?_⟩
      simp [mainRun, hv, hc, afterMiss, hl, hs, hat]

/-- C3 witness: a malformed domain prints the validation error and exits 1. -/
theorem c3_witness :
    mainRun true ["whois_lookup.py", "bad"] [] 0 none HttpOutcome.timeout =
      MainOutcome.exit invalidJson 1 [] :=
  c3_exit_codes.2.2.1 "whois_lookup.py" "bad" [] 0 none HttpOutcome.timeout (by decide)

/-- C3 counterexample to the claim as stated: with a fresh cache file whose
entry carries `status: "error"`, the run prints that error entry yet exits
with code 0 (the hit path does not inspect the status), contradicting "exit
code 1 when the emitted result has status error". -/
theorem c3_cex :
    mainRun true ["whois_lookup.py", "x.com"]
        [("x.com.json", FileData.value (Json.obj [("status", Json.str "error"),
          ("checked_at", Json.str "2024-01-02T00:00:00Z")]))]
        (wallMicros 2024 1 2 0 0 0 0) none HttpOutcome.timeout =
      MainOutcome.exit (Json.obj [("status", Json.str "error"),
          ("checked_at", Json.str "2024-01-02T00:00:00Z")]) 0
        [("x.com.json", FileData.value (Json.obj [("status", Json.str "error"),
          ("checked_at", Json.str "2024-01-02T00:00:00Z")]))] ∧
      stIsError (Json.str "error") = true := ⟨rfl, rfl⟩

/-- C6 (confirmed). On the fresh-lookup path, the remote result is written to
the cache if and only if its status is `available` or `taken`; what is
written (and printed) is the result stamped with `checked_at` holding the
current UTC timestamp in ISO form; `error` results leave the cache exactly as
the cache read left it. -/
theorem c6_persist (p d : String) (fs fs1 : FS) (now : Int)
    (token : Option String) (net : HttpOutcome)
    (rkvs : List (String × Json)) (used : Bool) (st : Json)
    (hv : validate_domain d = true)
    (hc : Cache.get fs d now = (GetResult.miss, fs1))
    (hl : WhoisAPI.lookup token d net = (LookupOutcome.ok rkvs, used))
    (hs : jsonGet rkvs "status" = some st) :
    (stAvailTaken st = true →
      mainRun true [p, d] fs now token net =
        MainOutcome.exit (Json.obj (objInsert rkvs "checked_at" (Json.str (isoZ now)))) 0
          (Cache.set fs1 d (Json.obj (objInsert rkvs "checked_at" (Json.str (isoZ now))))) ∧
      jsonGet (objInsert rkvs "checked_at" (Json.str (isoZ now))) "checked_at" =
        some (Json.str (isoZ now))) ∧
    (stAvailTaken st = false →
      mainRun true [p, d] fs now token net =
        MainOutcome.exit (Json.obj rkvs) (if stIsError st = true then 1 else 0) fs1) := by
  constructor
  · intro hat
    refine ⟨?_, jsonGet_objInsert rkvs "checked_at" (Json.str (isoZ now))⟩
    simp [mainRun, hv, hc, afterMiss, hl, hs, hat]
  · intro hat
    simp [mainRun, hv, hc, afterMiss, hl, hs, hat]

/-- C6 witness: an `available` remote result for an empty cache is stamped
with the ISO timestamp of "now" and written under the domain's key. -/
theorem c6_witness :
    mainRun true ["whois_lookup.py", "ex.com"] [] (wallMicros 2024 1 2 0 0 0 0)
        (some "tok") (HttpOutcome.response 200
          (Json.obj [("status", Json.num 0), ("registered", Json.bool false)])) =
      MainOutcome.exit
        (Json.obj (objInsert [("status", Json.str "available"), ("domain", Json.str "ex.com")]
          "checked_at" (Json.str (isoZ (wallMicros 2024 1 2 0 0 0 0))))) 0
        (Cache.set [] "ex.com"
          (Json.obj (objInsert [("status", Json.str "available"), ("domain", Json.str "ex.com")]
            "checked_at" (Json.str (isoZ (wallMicros 2024 1 2 0 0 0 0)))))) ∧
      jsonGet (objInsert [("status", Json.str "available"), ("domain", Json.str "ex.com")]
          "checked_at" (Json.str (isoZ (wallMicros 2024 1 2 0 0 0 0)))) "checked_at" =
        some (Json.str (isoZ (wallMicros 2024 1 2 0 0 0 0))) :=
  (c6_persist "whois_lookup.py" "ex.com" [] [] (wallMicros 2024 1 2 0 0 0 0)
    (some "tok") (HttpOutcome.response 200
      (Json.obj [("status", Json.num 0), ("registered", Json.bool false)]))
    [("status", Json.str "available"), ("domain", Json.str "ex.com")] true
    (Json.str "available") (by decide) rfl rfl rfl).1 rfl
